import Mathlib

/-!
Shallow embedding of `src/fuxx.cpp` (a memory-latency micro-benchmark) and
proofs of the specification claims about it.

Machine integers: `size_t` and `uint64_t` are 64-bit.  All quantities in the
program stay far below `2^64` except the accumulator `dummy`, whose additions
are modelled with an explicit `% 2^64`.  Buffers (`uint8_t*`) are modelled as
functions `Nat → Nat` holding byte values; writes are pointwise functional
update.
-/

namespace Fuxx

/-- Modulus of `uint64_t` arithmetic. -/
def U64 : Nat := 2 ^ 64

/-- Stride added to the cursor each iteration: `pos += 17*64` (lines 69 and 106). -/
def stride : Nat := 17 * 64

/-- Buffer initialization pattern `p[i] = i & 0xff` (lines 61-63 and 98-100). -/
def initBuf (i : Nat) : Nat := i &&& 0xff

/-- Value stored by the write benchmark at iteration `i`: `p[pos] = i % 0xff`
(line 105).  Note `0xff = 255`, not `0x100`. -/
def writeVal (i : Nat) : Nat := i % 0xff

/-- Iteration count `nrTries = 300000000 * timeFactor / 100` (lines 59 and 96),
with C++ integer division. -/
def nrTries (timeFactor : Nat) : Nat := 300000000 * timeFactor / 100

/-- Embedding of the wraparound loop `while (pos >= memUsage) pos -= memUsage;`
(lines 70-72 and 107-109) as a total function.  For `N = 0` the C++ loop would
not terminate; the program guarantees `N ≥ 1 MiB`, and all theorems about
`wrapSub` assume `0 < N`. -/
def wrapSub (N pos : Nat) : Nat :=
  if _h : 0 < N ∧ N ≤ pos then wrapSub N (pos - N) else pos
termination_by pos
decreasing_by omega

/-- Fuel-indexed version of the same wraparound loop: each unit of fuel allows
one iteration of the `while` body; `none` means the fuel was exhausted before
the loop condition became false.  Used to state that the loop terminates. -/
def wrapFuel (N : Nat) : Nat → Nat → Option Nat
  | 0, pos => if pos < N then some pos else none
  | f + 1, pos => if pos < N then some pos else wrapFuel N f (pos - N)

/-- One cursor advance: `pos += 17*64;` followed by the wraparound loop. -/
def posStep (N pos : Nat) : Nat := wrapSub N (pos + stride)

/-- Cursor value after `k` advances starting from `p`. -/
def posIter (N : Nat) : Nat → Nat → Nat
  | 0, p => p
  | k + 1, p => posIter N k (posStep N p)

/-- Cursor value at which the k-th buffer access occurs (`pos` starts at 0,
line 58/95, and is advanced after each access). -/
def posSeq (N k : Nat) : Nat := posIter N k 0

/-- Modelled from the spec: the Access-Pattern Generator's k-th offset,
`(1088 * k) mod N`.  This is the specification-side definition that the
source-side `posSeq` is compared against. -/
def specOffset (N k : Nat) : Nat := (1088 * k) % N

/-- List of buffer offsets accessed by a benchmark loop of `n` iterations
over a buffer of `N` bytes (both benchmarks generate the same sequence). -/
def accessTrace (N n : Nat) : List Nat :=
  (List.range n).map (fun k => posSeq N k)

/-- Pointwise functional update of a byte buffer: `p[j] = v`. -/
def updateBuf (buf : Nat → Nat) (j v : Nat) : Nat → Nat :=
  fun x => if x = j then v else buf x

/-- State of the read benchmark's timed loop: the global accumulator `dummy`
(line 35) and the cursor `pos` (line 58). -/
structure ReadState where
  dummy : Nat
  pos : Nat

/-- One iteration of the read benchmark's timed loop (lines 67-73):
`dummy += p[pos]; pos += 17*64; while (pos >= memUsage) pos -= memUsage;`.
The `uint64_t` addition into `dummy` is taken mod `2^64`. -/
def readStep (N : Nat) (buf : Nat → Nat) (s : ReadState) : ReadState :=
  { dummy := (s.dummy + buf s.pos) % U64, pos := posStep N s.pos }

/-- The read benchmark's timed loop, `n` iterations. -/
def readLoop (N : Nat) (buf : Nat → Nat) : Nat → ReadState → ReadState
  | 0, s => s
  | n + 1, s => readLoop N buf n (readStep N buf s)

/-- State of the write benchmark's timed loop: the local buffer `p`, the
cursor `pos`, and the global `dummy` (which the write benchmark's body never
mentions; it is carried through unchanged). -/
structure WriteState where
  buf : Nat → Nat
  pos : Nat
  dummy : Nat

/-- Iteration `i` of the write benchmark's timed loop (lines 104-110):
`p[pos] = i % 0xff; pos += 17*64; while (pos >= memUsage) pos -= memUsage;`. -/
def writeStep (N i : Nat) (s : WriteState) : WriteState :=
  { buf := updateBuf s.buf s.pos (writeVal i), pos := posStep N s.pos,
    dummy := s.dummy }

/-- The write benchmark's timed loop: `writeLoop N n s` performs iterations
`i = 0, 1, ..., n-1` in order (the outermost application is the last
iteration, `i = n-1`). -/
def writeLoop (N : Nat) : Nat → WriteState → WriteState
  | 0, s => s
  | n + 1, s => writeStep N n (writeLoop N n s)

/-- Clamping of `memUsage` in MiB (lines 131-133): `0` becomes `128`; values
`≥ 1024*1024` become `1024`. -/
def clampMemMiB (m : Nat) : Nat :=
  let m1 := if m > 0 then m else 128
  if m1 < 1024 * 1024 then m1 else 1024

/-- Clamping of `diskUsage` in MiB (lines 136-138): values `< 16` become `16`;
values `≥ 1024*1024` become `1024`. -/
def clampDiskMiB (d : Nat) : Nat :=
  let d1 := if d ≥ 16 then d else 16
  if d1 < 1024 * 1024 then d1 else 1024

/-- Resolved memory usage in bytes: clamping first, then the MiB-to-bytes
conversion `memUsage *= 1024 * 1024` (line 141). -/
def resolveMemBytes (m : Nat) : Nat := clampMemMiB m * (1024 * 1024)

/-- Clamping of the third argument `timeFactor` (lines 146-147): `0` becomes
`100`; values `≥ 1000` become `100`. -/
def clampTimeFactor (t : Nat) : Nat :=
  let t1 := if t > 0 then t else 100
  if t1 < 1000 then t1 else 100

/-- Model of `std::stoul` on the strings this program receives: a non-empty
all-digit string parses to its value when it fits in 64 bits; anything else
(including the out-of-range case) is a fatal parse failure, modelled as
`none`.  `std::stoul` is standard-library code, not part of this repository. -/
def stoul (s : String) : Option Nat :=
  if !s.data.isEmpty && s.data.all Char.isDigit then
    let v := s.data.foldl (fun a c => a * 10 + (c.toNat - 48)) 0
    if v < 2 ^ 64 then some v else none
  else none

/-- Usage banner printed when fewer than two arguments are supplied
(lines 123-128). -/
def usageText : String :=
  "\nUsage: fuxx <memUsageMiB> <diskUsageMiB> [<timeFactor>] \n       where <memUsage> and <diskUsage> are in Mebibytes\n       and timeFactor is in percent of the normal runtime.\n\n"

/-- Observable result of one full program run: the values printed and the
benchmark computations performed. -/
structure RunData where
  memMiB : Nat
  diskMiB : Nat
  tfShown : Option Nat
  tf : Nat
  memBytes : Nat
  diskBytes : Nat
  nrOps : Nat
  readAccesses : List Nat
  writeAccesses : List Nat
  readDummy : Nat
  pleaseIgnore : Nat

/-- Result of `main`: the usage banner (argc < 3), a fatal `std::stoul`
failure, or a completed run. -/
inductive MainResult where
  | usage (text : String)
  | parseFailure
  | ran (r : RunData)

/-- Benchmark phase of `main` (lines 151-154), after parsing and clamping:
converts MiB to bytes, runs `memoryLatencyRead` then `memoryLatencyWrite`
(the write benchmark sees the `dummy` left by the read benchmark), and
finally reports `dummy` ("Please ignore:"). -/
def runBench (memMiB diskMiB : Nat) (tfShown : Option Nat) : MainResult :=
  let tf := tfShown.getD 100
  let memBytes := memMiB * (1024 * 1024)
  let diskBytes := diskMiB * (1024 * 1024)
  let n := nrTries tf
  let rs := readLoop memBytes initBuf n { dummy := 0, pos := 0 }
  let ws := writeLoop memBytes n { buf := initBuf, pos := 0, dummy := rs.dummy }
  MainResult.ran
    { memMiB := memMiB, diskMiB := diskMiB, tfShown := tfShown, tf := tf,
      memBytes := memBytes, diskBytes := diskBytes, nrOps := n,
      readAccesses := accessTrace memBytes n,
      writeAccesses := accessTrace memBytes n,
      readDummy := rs.dummy, pleaseIgnore := ws.dummy }

/-- Embedding of `main` (lines 121-156) applied to the user-supplied
arguments (`argv` without the program name; `argc < 3` is `args.length < 2`).
Parsing, clamping and the default `timeFactor = 100` (line 33) follow the
source; a `std::stoul` failure aborts the run. -/
def mainRun : List String → MainResult
  | a1 :: a2 :: rest =>
    match stoul a1, stoul a2 with
    | some m0, some d0 =>
      let memMiB := clampMemMiB m0
      let diskMiB := clampDiskMiB d0
      match rest with
      | [] => runBench memMiB diskMiB none
      | a3 :: _ =>
        match stoul a3 with
        | some t0 => runBench memMiB diskMiB (some (clampTimeFactor t0))
        | none => MainResult.parseFailure
    | _, _ => MainResult.parseFailure
  | _ => MainResult.usage usageText

/-- Process exit status: 0 on the usage path (line 129) and on the normal
path (line 155); a parse failure terminates abnormally (`none`). -/
def exitCodeOf : MainResult → Option Nat
  | MainResult.usage _ => some 0
  | MainResult.parseFailure => none
  | MainResult.ran _ => some 0

/-- Buffer allocations performed, in bytes (`new uint8_t[memUsage]` at lines
57 and 94; one per benchmark). -/
def allocationsOf : MainResult → List Nat
  | MainResult.ran r => [r.memBytes, r.memBytes]
  | _ => []

/-- Total number of timed benchmark iterations performed. -/
def iterationsOf : MainResult → Nat
  | MainResult.ran r => 2 * r.nrOps
  | _ => 0

/-- Number of `timeNow()` calls performed (two per benchmark, lines 65/75 and
102/112). -/
def timerCallsOf : MainResult → Nat
  | MainResult.ran _ => 4
  | _ => 0

/-- Iteration count of each benchmark, when the benchmarks ran. -/
def nrOpsOf : MainResult → Option Nat
  | MainResult.ran r => some r.nrOps
  | _ => none

/-- Resolved time factor, when the benchmarks ran. -/
def tfOf : MainResult → Option Nat
  | MainResult.ran r => some r.tf
  | _ => none

/-- Final accumulator of the read benchmark, when the benchmarks ran. -/
def readDummyOf : MainResult → Option Nat
  | MainResult.ran r => some r.readDummy
  | _ => none

/-- The value printed after "Please ignore:" (line 154), when the benchmarks
ran. -/
def pleaseIgnoreOf : MainResult → Option Nat
  | MainResult.ran r => some r.pleaseIgnore
  | _ => none

/-- Everything observable about a completed run except the disk-usage
parameter and the line printing it. -/
def ranView :
    MainResult →
      Option (Nat × Option Nat × Nat × Nat × Nat × List Nat × List Nat × Nat × Nat)
  | MainResult.ran r =>
    some (r.memMiB, r.tfShown, r.tf, r.memBytes, r.nrOps,
      r.readAccesses, r.writeAccesses, r.readDummy, r.pleaseIgnore)
  | _ => none

/-- Whether the argument list parses completely (so that the benchmarks run). -/
def parseOk : List String → Bool
  | a1 :: a2 :: rest =>
    (stoul a1).isSome && (stoul a2).isSome &&
      (match rest with
       | [] => true
       | a3 :: _ => (stoul a3).isSome)
  | _ => false

/-! ### Helper lemmas -/

/-- Repeated subtraction computes true modular reduction (for nonempty
buffers). -/
theorem wrapSub_eq_mod (N : Nat) (hN : 0 < N) :
    ∀ pos, wrapSub N pos = pos % N := by
  intro pos
  induction pos using Nat.strong_induction_on with
  | _ pos ih =>
    rw [wrapSub]
    split
    · rename_i h
      rw [ih (pos - N) (by omega)]
      exact (Nat.mod_eq_sub_mod h.2).symm
    · rename_i h
      exact (Nat.mod_eq_of_lt (by omega)).symm

/-- One cursor advance from a reduced position. -/
theorem posStep_mod (N : Nat) (hN : 0 < N) (x : Nat) :
    posStep N (x % N) = (x + stride) % N := by
  rw [posStep, wrapSub_eq_mod N hN, Nat.mod_add_mod]

/-- `k` cursor advances from a reduced position. -/
theorem posIter_mod (N : Nat) (hN : 0 < N) :
    ∀ k x, posIter N k (x % N) = (x + stride * k) % N := by
  intro k
  induction k with
  | zero => intro x; simp [posIter]
  | succ k ih =>
    intro x
    show posIter N k (posStep N (x % N)) = _
    rw [posStep_mod N hN, ih (x + stride)]
    congr 1
    ring

/-- The cursor at the k-th access is `(stride * k) % N`. -/
theorem posSeq_mod (N : Nat) (hN : 0 < N) (k : Nat) :
    posSeq N k = (stride * k) % N := by
  have h0 : (0 : Nat) = 0 % N := (Nat.zero_mod N).symm
  rw [posSeq, h0, posIter_mod N hN]
  simp

/-- The initialization pattern `i & 0xff` is `i mod 256`. -/
theorem initBuf_eq_mod (i : Nat) : initBuf i = i % 256 := by
  have h := Nat.and_pow_two_sub_one_eq_mod i 8
  norm_num at h
  exact h

/-- With fuel at least `pos`, the fueled wraparound loop terminates and
returns `pos % N`. -/
theorem wrapFuel_complete (N : Nat) (hN : 0 < N) :
    ∀ f pos, pos ≤ f → wrapFuel N f pos = some (pos % N) := by
  intro f
  induction f with
  | zero =>
    intro pos hp
    have hp0 : pos = 0 := Nat.le_zero.mp hp
    subst hp0
    simp [wrapFuel, hN]
  | succ f ih =>
    intro pos hp
    by_cases h : pos < N
    · simp [wrapFuel, h, Nat.mod_eq_of_lt h]
    · simp only [wrapFuel, if_neg h]
      rw [ih (pos - N) (by omega)]
      exact congrArg some (Nat.mod_eq_sub_mod (by omega)).symm

/-- Cursor advances commute with `posIter`. -/
theorem posIter_posStep (N : Nat) :
    ∀ k p, posIter N k (posStep N p) = posStep N (posIter N k p) := by
  intro k
  induction k with
  | zero => intro p; rfl
  | succ k ih =>
    intro p
    show posIter N k (posStep N (posStep N p)) = _
    rw [ih (posStep N p)]
    rfl

/-- The read benchmark's cursor after `n` iterations. -/
theorem readLoop_pos (N : Nat) (buf : Nat → Nat) :
    ∀ n s, (readLoop N buf n s).pos = posIter N n s.pos := by
  intro n
  induction n with
  | zero => intro s; rfl
  | succ n ih =>
    intro s
    show (readLoop N buf n (readStep N buf s)).pos = _
    rw [ih]
    rfl

/-- The write benchmark's cursor after `n` iterations. -/
theorem writeLoop_pos (N : Nat) :
    ∀ n s, (writeLoop N n s).pos = posIter N n s.pos := by
  intro n
  induction n with
  | zero => intro s; rfl
  | succ n ih =>
    intro s
    show (writeStep N n (writeLoop N n s)).pos = _
    show posStep N (writeLoop N n s).pos = _
    rw [ih]
    exact (posIter_posStep N n s.pos).symm

/-- The write benchmark's loop body never touches `dummy`. -/
theorem writeLoop_dummy_eq (N : Nat) :
    ∀ n s, (writeLoop N n s).dummy = s.dummy := by
  intro n
  induction n with
  | zero => intro s; rfl
  | succ n ih =>
    intro s
    show (writeStep N n (writeLoop N n s)).dummy = _
    show (writeLoop N n s).dummy = _
    exact ih s

/-- Accumulator after `n` read iterations from a reduced state: the running
`uint64_t` additions agree with a single sum taken mod `2^64`. -/
theorem readLoop_dummy_sum (N : Nat) (hN : 0 < N) (buf : Nat → Nat) :
    ∀ n x d,
      (readLoop N buf n { dummy := d % U64, pos := x % N }).dummy
        = (d + ∑ k in Finset.range n, buf ((x + stride * k) % N)) % U64 := by
  intro n
  induction n with
  | zero => intro x d; simp [readLoop]
  | succ n ih =>
    intro x d
    show (readLoop N buf n (readStep N buf _)).dummy = _
    have hstep : readStep N buf { dummy := d % U64, pos := x % N }
        = { dummy := (d + buf (x % N)) % U64, pos := (x + stride) % N } := by
      simp [readStep, posStep_mod N hN, Nat.mod_add_mod]
    rw [hstep, ih (x + stride) (d + buf (x % N))]
    congr 1
    rw [Finset.sum_range_succ']
    have hre : ∀ k : Nat, x + stride + stride * k = x + stride * (k + 1) := by
      intro k; ring
    simp only [hre, Nat.mul_zero, Nat.add_zero]
    ring

/-- After `m + 1` write iterations, the byte at the final cursor position is
the value stored by the last iteration, `writeVal m = m % 0xff`. -/
theorem writeLoop_last (N : Nat) (hN : 0 < N) (m d : Nat) :
    (writeLoop N (m + 1) { buf := initBuf, pos := 0, dummy := d }).buf
        ((stride * m) % N)
      = writeVal m := by
  have hpos :
      (writeLoop N m { buf := initBuf, pos := 0, dummy := d }).pos
        = (stride * m) % N := by
    rw [writeLoop_pos]
    exact posSeq_mod N hN m
  show (writeStep N m (writeLoop N m _)).buf ((stride * m) % N) = writeVal m
  simp [writeStep, updateBuf, hpos]

/-! ### Claim theorems -/

/-- C1 (counterexample): the claim says the value stored at iteration `i` is
`i mod 256`, so after 256 iterations the byte at the final write position
would be `255 % 256 = 255`.  The code stores `i % 0xff = i % 255` (line 105),
so for a 1 MiB buffer that byte is `255 % 255 = 0`, refuting the claim. -/
theorem write_value_not_mod_256 :
    ¬ ((writeLoop 1048576 256 { buf := initBuf, pos := 0, dummy := 0 }).buf
          ((1088 * 255) % 1048576)
        = 255 % 256) := by
  rw [show (1088 * 255) % 1048576 = (stride * 255) % 1048576 from by
    norm_num [stride]]
  rw [writeLoop_last 1048576 (by norm_num) 255 0]
  decide

/-- C1 (amended): in the write benchmark, the value stored into
`buffer[cursor]` at iteration `i` is `i % 255` (the code computes `i % 0xff`
with `0xff = 255`, not `i mod 256`); consequently, after the loop completes
(for `nrOps ≥ 1`), the byte at the position of the final write equals
`(nrOps - 1) % 255`. -/
theorem write_value_mod_255 (N n d : Nat) (hN : 0 < N) (hn : 0 < n) :
    (∀ i s, (writeStep N i s).buf s.pos = i % 255)
    ∧ (writeLoop N n { buf := initBuf, pos := 0, dummy := d }).buf
          ((1088 * (n - 1)) % N)
        = (n - 1) % 255 := by
  constructor
  · intro i s
    show updateBuf s.buf s.pos (writeVal i) s.pos = i % 255
    simp [updateBuf, writeVal]
  · obtain ⟨m, rfl⟩ : ∃ m, n = m + 1 := ⟨n - 1, by omega⟩
    simp only [Nat.add_sub_cancel]
    rw [show (1088 * m) % N = (stride * m) % N from by norm_num [stride]]
    rw [writeLoop_last N hN m d]
    rfl

/-- C1 (witness for the amended theorem) at `N = 1 MiB`, `nrOps = 300`. -/
theorem write_value_mod_255_witness :
    ((0 : Nat) < 1048576 ∧ (0 : Nat) < 300)
    ∧ (writeLoop 1048576 300 { buf := initBuf, pos := 0, dummy := 0 }).buf
          ((1088 * (300 - 1)) % 1048576)
        = (300 - 1) % 255 :=
  ⟨⟨by decide, by decide⟩,
    (write_value_mod_255 1048576 300 0 (by decide) (by decide)).2⟩

/-- C2: for every buffer size `N ≥ 1` and iteration count `n`, the
accumulator `dummy` (starting from 0) after the read benchmark's timed loop
equals the sum over `k < n` of `buffer[(1088*k) mod N]` taken mod `2^64`,
where the buffer was initialized with `buffer[i] = i mod 256`. -/
theorem read_accumulator_sum (N n : Nat) (hN : 0 < N) :
    (readLoop N initBuf n { dummy := 0, pos := 0 }).dummy
      = (∑ k in Finset.range n, ((1088 * k) % N) % 256) % 2 ^ 64
    ∧ ∀ i, initBuf i = i % 256 := by
  refine ⟨?_, initBuf_eq_mod⟩
  have h0 : ({ dummy := 0, pos := 0 } : ReadState)
      = { dummy := 0 % U64, pos := 0 % N } := by
    simp [U64]
  rw [h0, readLoop_dummy_sum N hN initBuf n 0 0]
  simp only [Nat.zero_add]
  have hterm : ∀ k : Nat, initBuf ((stride * k) % N) = ((1088 * k) % N) % 256 := by
    intro k
    rw [initBuf_eq_mod]
    norm_num [stride]
  rw [Finset.sum_congr rfl (fun k _ => hterm k)]
  rfl

/-- C2 (witness) at `N = 1 MiB`, `n = 4`. -/
theorem read_accumulator_sum_witness :
    (0 : Nat) < 1048576
    ∧ (readLoop 1048576 initBuf 4 { dummy := 0, pos := 0 }).dummy
        = (∑ k in Finset.range 4, ((1088 * k) % 1048576) % 256) % 2 ^ 64 :=
  ⟨by decide, (read_accumulator_sum 1048576 4 (by decide)).1⟩

/-- C3: for every buffer size `N ≥ 1`, the cursor at the k-th access equals
`(1088 * k) mod N` (starting at offset 0 for `k = 0`): the repeated
subtraction wraparound computes exactly true modular reduction, and the
cursor after `k` iterations is the same in both benchmarks. -/
theorem access_pattern_eq_spec_offset (N k d : Nat) (buf : Nat → Nat)
    (hN : 0 < N) :
    posSeq N k = specOffset N k
    ∧ (readLoop N buf k { dummy := d, pos := 0 }).pos = specOffset N k
    ∧ (writeLoop N k { buf := buf, pos := 0, dummy := d }).pos = specOffset N k := by
  have h1 : posSeq N k = specOffset N k := by
    rw [posSeq_mod N hN, specOffset]
    norm_num [stride]
  refine ⟨h1, ?_, ?_⟩
  · rw [readLoop_pos]
    exact h1
  · rw [writeLoop_pos]
    exact h1

/-- C3 (witness) at `N = 1 MiB`, `k = 7`. -/
theorem access_pattern_eq_spec_offset_witness :
    (0 : Nat) < 1048576 ∧ posSeq 1048576 7 = specOffset 1048576 7 :=
  ⟨by decide, (access_pattern_eq_spec_offset 1048576 7 0 initBuf (by decide)).1⟩

/-- C4: resolved memory usage is `128 MiB` in bytes for input 0, `1024 MiB`
in bytes for inputs `≥ 1048576`, and `m * 1024 * 1024` bytes for
`m ∈ [1, 1048575]`; clamping happens before the MiB-to-bytes conversion. -/
theorem mem_usage_resolution (m : Nat) :
    (m = 0 → resolveMemBytes m = 128 * 1024 * 1024)
    ∧ (1048576 ≤ m → resolveMemBytes m = 1024 * 1024 * 1024)
    ∧ (1 ≤ m → m ≤ 1048575 → resolveMemBytes m = m * (1024 * 1024)) := by
  refine ⟨?_, ?_, ?_⟩ <;>
    (intros; simp only [resolveMemBytes, clampMemMiB]; split_ifs <;> omega)

/-- C4 (witness) at `m = 64`. -/
theorem mem_usage_resolution_witness :
    ((1 : Nat) ≤ 64 ∧ (64 : Nat) ≤ 1048575)
    ∧ resolveMemBytes 64 = 64 * (1024 * 1024) :=
  ⟨⟨by decide, by decide⟩, (mem_usage_resolution 64).2.2 (by decide) (by decide)⟩

/-- C5: the resolved time factor is 100 for input 0 or inputs `≥ 1000`,
passes through unchanged on `[1, 999]`, and defaults to 100 when no third
argument is supplied. -/
theorem time_factor_resolution (t : Nat) :
    (t = 0 → clampTimeFactor t = 100)
    ∧ (1000 ≤ t → clampTimeFactor t = 100)
    ∧ (1 ≤ t → t ≤ 999 → clampTimeFactor t = t)
    ∧ tfOf (mainRun ["64", "16"]) = some 100 := by
  refine ⟨?_, ?_, ?_, rfl⟩ <;>
    (intros; simp only [clampTimeFactor]; split_ifs <;> omega)

/-- C5 (witness) at `t = 7`. -/
theorem time_factor_resolution_witness :
    ((1 : Nat) ≤ 7 ∧ (7 : Nat) ≤ 999) ∧ clampTimeFactor 7 = 7 :=
  ⟨⟨by decide, by decide⟩, (time_factor_resolution 7).2.2.1 (by decide) (by decide)⟩

/-- C6: each benchmark's timed loop performs exactly
`nrOps = 300000000 * timeFactor / 100` accesses (integer division); for the
arguments `("64", "16", "10")` each benchmark runs exactly 30,000,000
iterations. -/
theorem benchmark_iteration_count (N tf : Nat) :
    (accessTrace N (nrTries tf)).length = 300000000 * tf / 100
    ∧ nrOpsOf (mainRun ["64", "16", "10"]) = some 30000000 := by
  constructor
  · simp [accessTrace, nrTries]
  · rfl

set_option maxRecDepth 4096 in
/-- C7: with fewer than two arguments, `main` prints the usage banner (which
contains the substring "Usage: "), exits with status 0, and performs no
buffer allocation, no benchmark iteration, and no timer call. -/
theorem usage_path_behavior (args : List String) (h : args.length < 2) :
    mainRun args = MainResult.usage usageText
    ∧ exitCodeOf (mainRun args) = some 0
    ∧ allocationsOf (mainRun args) = []
    ∧ iterationsOf (mainRun args) = 0
    ∧ timerCallsOf (mainRun args) = 0
    ∧ ∃ pre post, usageText = pre ++ "Usage: " ++ post := by
  have hsplit : ∃ pre post, usageText = pre ++ "Usage: " ++ post :=
    ⟨"\n",
      "fuxx <memUsageMiB> <diskUsageMiB> [<timeFactor>] \n       where <memUsage> and <diskUsage> are in Mebibytes\n       and timeFactor is in percent of the normal runtime.\n\n",
      by decide⟩
  match args with
  | [] => exact ⟨rfl, rfl, rfl, rfl, rfl, hsplit⟩
  | [a] => exact ⟨rfl, rfl, rfl, rfl, rfl, hsplit⟩
  | a :: b :: t =>
    simp only [List.length_cons] at h
    omega

/-- C7 (witness) at the empty argument list. -/
theorem usage_path_behavior_witness :
    ([] : List String).length < 2 ∧ mainRun [] = MainResult.usage usageText :=
  ⟨by decide, (usage_path_behavior [] (by decide)).1⟩

/-- C8: the disk-usage argument never influences the benchmarks: two runs
whose argument lists differ only in the second (disk) argument, both parsing
successfully, produce identical benchmark computations (iteration counts,
access sequences, final accumulator, and all printed values except the
disk-usage line) and the same exit status. -/
theorem disk_usage_no_influence (a1 a2 a2' : String) (rest : List String)
    (h1 : parseOk (a1 :: a2 :: rest) = true)
    (h2 : parseOk (a1 :: a2' :: rest) = true) :
    ranView (mainRun (a1 :: a2 :: rest)) = ranView (mainRun (a1 :: a2' :: rest))
    ∧ exitCodeOf (mainRun (a1 :: a2 :: rest))
        = exitCodeOf (mainRun (a1 :: a2' :: rest)) := by
  cases hm : stoul a1 with
  | none => simp [parseOk, hm] at h1
  | some m0 =>
    cases hd : stoul a2 with
    | none => simp [parseOk, hm, hd] at h1
    | some d0 =>
      cases hd' : stoul a2' with
      | none => simp [parseOk, hm, hd'] at h2
      | some d0' =>
        cases rest with
        | nil =>
          simp only [mainRun, hm, hd, hd']
          exact ⟨rfl, rfl⟩
        | cons a3 t3 =>
          cases ht : stoul a3 with
          | none => simp [parseOk, hm, hd, ht] at h1
          | some t0 =>
            simp only [mainRun, hm, hd, hd', ht]
            exact ⟨rfl, rfl⟩

/-- C8 (witness): disk arguments "16" and "999" with memory "64" and time
factor "10". -/
theorem disk_usage_no_influence_witness :
    (parseOk ["64", "16", "10"] = true ∧ parseOk ["64", "999", "10"] = true)
    ∧ ranView (mainRun ["64", "16", "10"]) = ranView (mainRun ["64", "999", "10"]) :=
  ⟨⟨by decide, by decide⟩,
    (disk_usage_no_influence "64" "16" "999" ["10"] (by decide) (by decide)).1⟩

/-- C9: for every buffer size `N ≥ 1`, the cursor is in `[0, N)` at every
access (so every read and write is in bounds), the wraparound while-loop
terminates (enough fuel yields `pos % N`), and the initialization loop only
writes indices below `N`. -/
theorem buffer_access_safety (N k pos : Nat) (hN : 0 < N) :
    posSeq N k < N
    ∧ (∃ f, wrapFuel N f pos = some (pos % N))
    ∧ ((List.range N).all fun i => i < N) = true := by
  refine ⟨?_, ⟨pos, wrapFuel_complete N hN pos pos (Nat.le_refl pos)⟩, ?_⟩
  · rw [posSeq_mod N hN]
    exact Nat.mod_lt _ hN
  · simp [List.all_eq_true, List.mem_range]

/-- C9 (witness) at `N = 1 MiB`, `k = 5`, `pos = 5000`. -/
theorem buffer_access_safety_witness :
    (0 : Nat) < 1048576 ∧ posSeq 1048576 5 < 1048576 :=
  ⟨by decide, (buffer_access_safety 1048576 5 5000 (by decide)).1⟩

/-- C10: the write benchmark never modifies the accumulator `dummy`, and the
final printed "Please ignore:" value equals exactly the accumulator produced
by the read benchmark alone. -/
theorem write_benchmark_preserves_dummy :
    (∀ N n s, (writeLoop N n s).dummy = s.dummy)
    ∧ ∀ args, pleaseIgnoreOf (mainRun args) = readDummyOf (mainRun args) := by
  refine ⟨fun N => writeLoop_dummy_eq N, ?_⟩
  have hrb : ∀ m d t, pleaseIgnoreOf (runBench m d t) = readDummyOf (runBench m d t) := by
    intro m d t
    simp [runBench, pleaseIgnoreOf, readDummyOf, writeLoop_dummy_eq]
  intro args
  cases args with
  | nil => rfl
  | cons a1 t1 =>
    cases t1 with
    | nil => rfl
    | cons a2 rest =>
      cases hm : stoul a1 with
      | none => simp [mainRun, hm, pleaseIgnoreOf, readDummyOf]
      | some m0 =>
        cases hd : stoul a2 with
        | none => simp [mainRun, hm, hd, pleaseIgnoreOf, readDummyOf]
        | some d0 =>
          cases rest with
          | nil =>
            simp only [mainRun, hm, hd]
            exact hrb _ _ _
          | cons a3 t3 =>
            cases ht : stoul a3 with
            | none => simp [mainRun, hm, hd, ht, pleaseIgnoreOf, readDummyOf]
            | some t0 =>
              simp only [mainRun, hm, hd, ht]
              exact hrb _ _ _

end Fuxx
